import Mathlib

/-! Verification of the generation-orchestration and edit-history core of the
banana-milkshake ad generator.

The development shallowly embeds the two source files that carry the core
logic:

* `src/services/geminiService.ts` — the retry wrapper `withRetries`, the
  error classifier `handleGeminiError`, the batch fan-out `generateAds`
  over the fixed list `styleVariations`, and the data-URL validation in
  `editAd`;
* `src/App.tsx` — the application state and the handlers
  `handleSubmit`, `handleRegenerateAd`, `handleSelectAdForEdit`,
  `handleApplyEdit`, `handleUndoEdit`, `handleRevertToOriginal`, together
  with the button-disabled predicates that gate them in the rendered UI.

Provider calls are modelled by their outcomes: an asynchronous operation
becomes a function from the attempt number to `Except RawError α`, and a
handler becomes a function from the pre-state and the awaited outcome to
the post-state (the scheduling model is single-threaded and cooperative,
so a handler runs to completion between interleaving points; the claims
about exclusion are claims about the guards evaluated when a handler
starts). -/

namespace BananaMilkshake

/-- Image asset (src/types): base64 payload plus media type. -/
structure ImageData where
  data : String
  mimeType : String
deriving DecidableEq

/-- Ad copy triple (src/types). -/
structure AdCopy where
  headline : String
  description : String
  cta : String
deriving DecidableEq

/-- A raw failure produced by a provider call, as seen by
`handleGeminiError` (geminiService.ts:19): either a JavaScript `Error`
carrying a message string, or any other thrown value (the
`error instanceof Error` test fails on it). -/
inductive RawError where
  | err (message : String)
  | other
deriving DecidableEq

/-! ### A JSON reader

`handleGeminiError` probes the raw message with `JSON.parse`.  The model
implements the JSON value grammar — objects, arrays, strings, numbers,
booleans and null, with JSON whitespace — agreeing with `JSON.parse` on
acceptance and on the decoded result, including the
last-duplicate-key-wins rule for objects, with one restriction: a `\u`
escape in the surrogate range is outside the modelled fragment and makes
the reader fail rather than diverge.  Strings reject unescaped control
characters exactly as `JSON.parse` does; numbers keep their lexeme — the
classifier only ever branches on whether a field holds a string, never
on a numeric value. -/

/-- Minimal JSON values.  A number carries its source lexeme: no
classifier branch reads a numeric value. -/
inductive Json where
  | str (s : String)
  | num (lexeme : String)
  | bool (b : Bool)
  | null
  | arr (elems : List Json)
  | obj (fields : List (String × Json))

/-- Drop leading JSON whitespace. -/
def skipWs (cs : List Char) : List Char :=
  cs.dropWhile (fun c => c = ' ' || c = '\t' || c = '\n' || c = '\r')

/-- Value of a hexadecimal digit. -/
def hexDigitVal (c : Char) : Option Nat :=
  if 0x30 ≤ c.toNat && c.toNat ≤ 0x39 then some (c.toNat - 0x30)
  else if 0x61 ≤ c.toNat && c.toNat ≤ 0x66 then some (c.toNat - 0x61 + 10)
  else if 0x41 ≤ c.toNat && c.toNat ≤ 0x46 then some (c.toNat - 0x41 + 10)
  else none

/-- Characters `JSON.parse` forbids unescaped inside a string: the
control range below U+0020. -/
def isJsonControl (c : Char) : Bool := c.toNat < 0x20

/-- Decode the single-character string escapes of JSON. -/
def jsonEscapeChar (e : Char) : Option Char :=
  if e = '"' then some '"'
  else if e = '\\' then some '\\'
  else if e = '/' then some '/'
  else if e = 'b' then some (Char.ofNat 8)
  else if e = 'f' then some (Char.ofNat 12)
  else if e = 'n' then some '\n'
  else if e = 'r' then some '\r'
  else if e = 't' then some '\t'
  else none

/-- Read the body of a JSON string after the opening quote, up to the
closing quote, decoding the escape sequences `JSON.parse` accepts.
Unescaped control characters fail, as in `JSON.parse`; a `\u` escape in
the surrogate range is outside the modelled fragment and fails. -/
def parseStringBody : List Char → Option (List Char × List Char)
  | [] => none
  | c :: rest =>
    if c = '"' then some ([], rest)
    else if c = '\\' then
      match rest with
      | 'u' :: h1 :: h2 :: h3 :: h4 :: rest2 =>
        match hexDigitVal h1, hexDigitVal h2, hexDigitVal h3, hexDigitVal h4 with
        | some a, some b, some c3, some d =>
          let n := ((a * 16 + b) * 16 + c3) * 16 + d
          if 0xD800 ≤ n && n ≤ 0xDFFF then none
          else
            match parseStringBody rest2 with
            | some (body, rem) => some (Char.ofNat n :: body, rem)
            | none => none
        | _, _, _, _ => none
      | e :: rest2 =>
        match jsonEscapeChar e with
        | some ch =>
          match parseStringBody rest2 with
          | some (body, rem) => some (ch :: body, rem)
          | none => none
        | none => none
      | [] => none
    else if isJsonControl c then none
    else
      match parseStringBody rest with
      | some (body, rem) => some (c :: body, rem)
      | none => none

/-- Test for an ASCII digit. -/
def isDigitCh (c : Char) : Bool := 0x30 ≤ c.toNat && c.toNat ≤ 0x39

/-- Read the unsigned integer part of a JSON number: a single zero, or
a nonzero digit followed by digits. -/
def parseNumberIntPart (cs : List Char) : Option (List Char × List Char) :=
  match cs with
  | c :: t =>
    if c = '0' then some ([c], t)
    else if isDigitCh c then some (c :: t.takeWhile isDigitCh, t.dropWhile isDigitCh)
    else none
  | [] => none

/-- Read an optional JSON fraction part.  A malformed fraction is left
unconsumed; no JSON context can continue with a stray dot, so acceptance
agrees with `JSON.parse`. -/
def parseNumberFrac (cs : List Char) : List Char × List Char :=
  match cs with
  | '.' :: t =>
    if (t.takeWhile isDigitCh).isEmpty then ([], cs)
    else ('.' :: t.takeWhile isDigitCh, t.dropWhile isDigitCh)
  | _ => ([], cs)

/-- Read an optional JSON exponent part; as with the fraction, a
malformed exponent is left unconsumed and rejected by the context. -/
def parseNumberExp (cs : List Char) : List Char × List Char :=
  match cs with
  | e :: t =>
    if e = 'e' || e = 'E' then
      match t with
      | s1 :: t2 =>
        if s1 = '+' || s1 = '-' then
          if (t2.takeWhile isDigitCh).isEmpty then ([], cs)
          else (e :: s1 :: t2.takeWhile isDigitCh, t2.dropWhile isDigitCh)
        else
          if (t.takeWhile isDigitCh).isEmpty then ([], cs)
          else (e :: t.takeWhile isDigitCh, t.dropWhile isDigitCh)
      | [] => ([], cs)
    else ([], cs)
  | [] => ([], cs)

/-- Read a JSON number, returning its lexeme: an optional minus sign,
an integer part without leading zeros, an optional fraction and an
optional exponent, read greedily. -/
def parseNumber (cs : List Char) : Option (List Char × List Char) :=
  match cs with
  | '-' :: t =>
    match parseNumberIntPart t with
    | some (ip, r1) =>
      match parseNumberFrac r1 with
      | (fp, r2) =>
        match parseNumberExp r2 with
        | (ep, r3) => some ('-' :: (ip ++ fp ++ ep), r3)
    | none => none
  | _ =>
    match parseNumberIntPart cs with
    | some (ip, r1) =>
      match parseNumberFrac r1 with
      | (fp, r2) =>
        match parseNumberExp r2 with
        | (ep, r3) => some (ip ++ fp ++ ep, r3)
    | none => none

mutual

/-- Read one JSON value from the input. -/
def parseValue : Nat → List Char → Option (Json × List Char)
  | 0, _ => none
  | Nat.succ fuel, cs =>
    match skipWs cs with
    | '"' :: rest =>
      match parseStringBody rest with
      | some (body, rem) => some (.str (String.mk body), rem)
      | none => none
    | '{' :: rest =>
      match skipWs rest with
      | '}' :: rem => some (.obj [], rem)
      | rest2 =>
        match parseMembers fuel rest2 with
        | some (fields, rem) => some (.obj fields, rem)
        | none => none
    | '[' :: rest =>
      match skipWs rest with
      | ']' :: rem => some (.arr [], rem)
      | rest2 =>
        match parseElems fuel rest2 with
        | some (elems, rem) => some (.arr elems, rem)
        | none => none
    | 't' :: 'r' :: 'u' :: 'e' :: rem => some (.bool true, rem)
    | 'f' :: 'a' :: 'l' :: 's' :: 'e' :: rem => some (.bool false, rem)
    | 'n' :: 'u' :: 'l' :: 'l' :: rem => some (.null, rem)
    | rest =>
      match parseNumber rest with
      | some (lexeme, rem) => some (.num (String.mk lexeme), rem)
      | none => none

/-- Read one or more `"key": value` members followed by the closing
brace of the enclosing object. -/
def parseMembers : Nat → List Char → Option (List (String × Json) × List Char)
  | 0, _ => none
  | Nat.succ fuel, cs =>
    match skipWs cs with
    | '"' :: rest =>
      match parseStringBody rest with
      | some (key, rem) =>
        match skipWs rem with
        | ':' :: rem2 =>
          match parseValue fuel rem2 with
          | some (v, rem3) =>
            match skipWs rem3 with
            | ',' :: rem4 =>
              match parseMembers fuel rem4 with
              | some (ms, rem5) => some ((String.mk key, v) :: ms, rem5)
              | none => none
            | '}' :: rem4 => some ([(String.mk key, v)], rem4)
            | _ => none
          | none => none
        | _ => none
      | none => none
    | _ => none

/-- Read one or more array elements followed by the closing bracket of
the enclosing array. -/
def parseElems : Nat → List Char → Option (List Json × List Char)
  | 0, _ => none
  | Nat.succ fuel, cs =>
    match parseValue fuel cs with
    | some (v, rem) =>
      match skipWs rem with
      | ',' :: rem2 =>
        match parseElems fuel rem2 with
        | some (vs, rem3) => some (v :: vs, rem3)
        | none => none
      | ']' :: rem2 => some ([v], rem2)
      | _ => none
    | none => none

end

/-- Model of `JSON.parse`: the whole input must be one value followed
only by whitespace.  The fuel bounds the recursion depth; it exceeds
what any derivation over the input can use, since along any chain of
recursive calls at most two units of fuel are spent per input character
consumed. -/
def parseJson (s : String) : Option Json :=
  match parseValue (2 * s.length + 2) s.toList with
  | some (v, rem) => if (skipWs rem).isEmpty then some v else none
  | none => none

/-- Field lookup on a parsed object; with duplicate keys `JSON.parse`
keeps the last occurrence. -/
def getField (fields : List (String × Json)) (key : String) : Option Json :=
  List.lookup key fields.reverse

/-! ### Classifier helpers -/

/-- Test that `pre` is a leading segment of `l`. -/
def leadsWith : List Char → List Char → Bool
  | [], _ => true
  | _ :: _, [] => false
  | p :: ps, c :: rest => p = c && leadsWith ps rest

/-- Test that `needle` occurs contiguously inside `hay` (the JS `String.includes`). -/
def hasSub (needle : List Char) : List Char → Bool
  | [] => leadsWith needle []
  | c :: rest => leadsWith needle (c :: rest) || hasSub needle rest

/-- ASCII lower-casing, modelling `toLowerCase` on the ASCII messages the
classifier compares (the keyword looked for is the ASCII "safety"). -/
def strLower (s : String) : String :=
  String.mk (s.toList.map Char.toLower)

/-- Index of the first opening brace and index of the last closing
brace: the match
of the regex `/{.*}/s` (dot-all, greedy) exists exactly when the last
closing brace lies strictly after the first opening brace, and the
matched text then runs from that first opening brace to that last closing
brace. -/
def jsonSpan (s : String) : Option String :=
  let cs := s.toList
  match cs.findIdx? (fun c => c = '{'), (cs.reverse.findIdx? (fun c => c = '}')) with
  | some i, some k =>
    let j := cs.length - 1 - k
    if i < j then some (String.mk ((cs.drop i).take (j - i + 1))) else none
  | _, _ => none

/-- Model of the `parsedError.status` fallback read (geminiService.ts:30): a
present, non-empty string status is used, anything else degrades to
"N/A".  (A non-string status never occurs in provider payloads; it would
in any case differ from "RESOURCE_EXHAUSTED", as "N/A" does.) -/
def statusOrNA (fields : List (String × Json)) : String :=
  match getField fields "status" with
  | some (.str s) => if s = "" then "N/A" else s
  | _ => "N/A"

/-- The inner probe of `handleGeminiError` (geminiService.ts:28-31):
parse the extracted span, take its `error` field, and require a present,
truthy `message`; the result is the pair `(errorCode, keyMessage)`.
Every failing path of the probe — parse error, missing or non-object
`error` (a non-object is either falsy or has no `message` property),
missing or empty `message` — leaves the generic fallback message in
place.  A truthy non-string `message` (a number, say) is outside the
modelled extraction: the claims classify string messages.  A non-string
`status` never compares equal to the quota code and is mapped to "N/A"
(see `statusOrNA`), so the branch taken agrees with the source either
way. -/
def extractError (span : String) : Option (String × String) :=
  match parseJson span with
  | some (.obj fields) =>
    match getField fields "error" with
    | some (.obj ef) =>
      match getField ef "message" with
      | some (.str m) => if m = "" then none else some (statusOrNA ef, m)
      | _ => none
    | _ => none
  | _ => none

/-- The generic fallback message (geminiService.ts:20). -/
def unexpectedMsg : String :=
  "We have encountered problems in generating your assets. An unexpected error occurred. Please try again."

/-- The quota-exceeded category message (geminiService.ts:34). -/
def quotaMsg : String :=
  "We have encountered problems in generating your assets. Error: API Quota Exceeded (out of tokens). For details, visit https://ai.google.dev/gemini-api/docs/rate-limits"

/-- The policy-violation category message (geminiService.ts:36). -/
def policyMsg : String :=
  "We have encountered problems in generating your assets. Error Code: SAFETY_VIOLATION. Message: Request blocked due to content policy."

/-- Model of `handleGeminiError` (geminiService.ts:19-51) as the message it
throws.  The `context` parameter of the source is used only for console
logging and is omitted. -/
def handleGeminiError : RawError → String
  | .other => unexpectedMsg
  | .err rawMessage =>
    match jsonSpan rawMessage with
    | some span =>
      match extractError span with
      | some (errorCode, keyMessage) =>
        if errorCode = "RESOURCE_EXHAUSTED" then quotaMsg
        else if hasSub "safety".toList (strLower keyMessage).toList then policyMsg
        else
          "We have encountered problems in generating your assets. Error Code: "
            ++ errorCode ++ ". Message: " ++ keyMessage
      | none => unexpectedMsg
    | none => "We have encountered problems in generating your assets: " ++ rawMessage

/-- The constant `MAX_RETRIES` (geminiService.ts:11). -/
def MAX_RETRIES : Nat := 3

/-- The loop of `withRetries` (geminiService.ts:59-72), entered at
attempt index `i` with `fuel = MAX_RETRIES - i` iterations of
`i < MAX_RETRIES` left.  The operation is modelled by its per-attempt
outcomes `op`; the second component counts how many times `op` was
invoked in total (the loop starts at index 0).  The fuel-exhausted case
is the loop exit followed by the post-loop `throw` of the source,
unreachable from the initial call. -/
def withRetriesGo (op : Nat → Except RawError α) : Nat → Nat → Except String α × Nat
  | 0, i =>
    (.error ("Operation failed after " ++ toString MAX_RETRIES ++ " attempts."), i)
  | fuel + 1, i =>
    match op i with
    | .ok v => (.ok v, i + 1)
    | .error e =>
      if i = MAX_RETRIES - 1 then (.error (handleGeminiError e), i + 1)
      else withRetriesGo op fuel (i + 1)

/-- Model of `withRetries` (geminiService.ts:59): run the wrapped operation with
bounded sequential retry; also report the number of invocations. -/
def withRetries (op : Nat → Except RawError α) : Except String α × Nat :=
  withRetriesGo op MAX_RETRIES 0

/-! ### Batch generation -/

/-- The list `styleVariations` (geminiService.ts:256-263): the fixed ordered list
of three creative directions. -/
def styleVariations : List String :=
  ["**Image-Centric Focus:** The Product/Lifestyle Photo is the undisputed hero. Create a clean, minimalist layout where the image dominates. Prioritize a full-bleed approach, seamlessly extending the photo (outpainting) to fill the entire canvas if it\x27s a lifestyle shot. All other elements (text, logo) must be positioned with subtlety to support the image, not compete with it. The final feel should be premium and uncluttered.",
   "**Bold Typographic Focus:** Create a dynamic, modern, and asymmetrical layout where typography is a key artistic element. The design should be a balanced interplay between the Product/Lifestyle Photo (ASSET 1) and large, impactful text. Instead of just filling space, use color blocks from the brand palette intelligently as design accents or to create a clear separation and hierarchy between text and image areas. The result should feel energetic and deliberate, not random.",
   "**High-Fidelity Template Adaptation:** Your primary goal is to recreate the \"Brand Style Guide/Ad Template\" (ASSET 2) using the provided new assets.\n    1.  Analyze the template\x27s layout: the positioning, scale, and alignment of its core components (image areas, text area, logo placement).\n    2.  **CRITICAL** Construct a new ad that mirrors this *structure and style*, but is replaced entirely with the new assets (ASSET 1 + ASSET 3 + user provided Ad Copy). REMOVE AND DO NOT INCLUDE any original text or ad copy, logo or images from the template (ASSET 2).\n    3.  The final ad should still feel like it perfectly fits within the brand\x27s established design system."]

/-- First rejection among the settled promises, scanned in the order in
which the promises settle: `order` lists positions into `ps` by
completion time.  This is the rejection `Promise.all` propagates. -/
def firstSettledRejection (ps : List (Except ε α)) : List Nat → Option ε
  | [] => none
  | i :: rest =>
    match ps.get? i with
    | some (.error e) => some e
    | _ => firstSettledRejection ps rest

/-- Collect fulfilled values in position order (the array `Promise.all`
fulfills with). -/
def collectOk : List (Except ε α) → Except ε (List α)
  | [] => .ok []
  | .error e :: _ => .error e
  | .ok a :: rest =>
    match collectOk rest with
    | .ok vs => .ok (a :: vs)
    | .error e => .error e

/-- Model of `Promise.all` over already-settled outcomes: reject with the first
rejection in completion order, otherwise fulfill with the values in
position order.  `order` abstracts the completion timing; the theorems
assume it is a permutation of the positions. -/
def promiseAll (ps : List (Except ε α)) (order : List Nat) : Except ε (List α) :=
  match firstSettledRejection ps order with
  | some e => .error e
  | none => collectOk ps

/-- Model of `generateAds` (geminiService.ts:379-399): one call per entry of
`styleVariations`, joined by `Promise.all`.  `gen` is the per-direction
`generateSingleAd` call — already wrapped in `withRetries` — modelled by
its outcome; the surrounding try/catch of the source only re-throws.
`order` is the completion order of the three calls. -/
def generateAds (gen : String → Except String String) (order : List Nat) :
    Except String (List String) :=
  promiseAll (styleVariations.map gen) order

/-! ### editAd input validation -/

/-- The literal lead-in required by the `editAd` data-URL regex. -/
def dataUrlLead : List Char := "data:image/".toList

/-- The literal separator required by the `editAd` data-URL regex. -/
def b64sep : List Char := ";base64,".toList

/-- Characters the JS regex `.` does not match (no `s` flag on the
data-URL regex): line terminators. -/
def isLineTerm (c : Char) : Bool :=
  c = '\n' || c = '\r' || c.toNat = 0x2028 || c.toNat = 0x2029

/-- The match of `/^data:(image\/.+);base64,(.+)$/` against `s`
(geminiService.ts:130), returning the two captured groups
`(mimeType, data)`.  Both `.+` groups are non-empty, contain no line
terminator, and the greedy first group makes the split happen at the
last admissible occurrence of the separator.  `dataUrlSplits rest`
lists the admissible split points (in ascending order), and the greedy
match takes the last one. -/
def dataUrlSplits (rest : List Char) : List Nat :=
  (List.range (rest.length + 1)).filter (fun k =>
    decide (1 ≤ k) && leadsWith b64sep (rest.drop k) &&
    decide (k + b64sep.length + 1 ≤ rest.length) &&
    (rest.take k).all (fun c => !isLineTerm c) &&
    (rest.drop (k + b64sep.length)).all (fun c => !isLineTerm c))

def dataUrlMatch (s : String) : Option (String × String) :=
  if leadsWith dataUrlLead s.toList then
    match (dataUrlSplits (s.toList.drop dataUrlLead.length)).getLast? with
    | some k =>
      some (String.mk ("image/".toList ++ (s.toList.drop dataUrlLead.length).take k),
            String.mk ((s.toList.drop dataUrlLead.length).drop (k + b64sep.length)))
    | none => none
  else none

/-- The data-URL shape `data:image/<subtype>;base64,<payload>` with
non-empty subtype and payload, as the specification words it. -/
def MatchesDataUrl (s : String) : Prop :=
  ∃ a b : List Char, a ≠ [] ∧ b ≠ [] ∧ s.toList = dataUrlLead ++ a ++ b64sep ++ b

/-- Model of `editAd` (geminiService.ts:110-163) at the granularity the claims
need: validate the base image data URL; on failure reject immediately
without entering the retry wrapper, otherwise run the wrapped provider
call.  `op` abstracts the per-attempt `generateContent` call together
with the image-part extraction; the second component counts provider
invocations. -/
def editAd (baseImage : String) (op : Nat → Except RawError String) :
    Except String String × Nat :=
  match dataUrlMatch baseImage with
  | none => (.error "Invalid base image data URL format.", 0)
  | some _ => withRetries op

/-! ### Application state (src/App.tsx)

The state collects the `useState` cells the generation/edit core reads
and writes.  Cells outside the core (the lifestyle-image workflow, the
copy-suggestion spinners, the raw product image) are omitted: the claims
never mention them and no modelled handler reads them.  Each async
handler is modelled by its net effect: a function of the pre-state and
the awaited provider outcome.  The second component of a handler result
reports the provider request it started (`none`/`false` when the handler
returned without calling the provider). -/

/-- The `editingAd` cell (App.tsx:37). -/
structure EditingAd where
  index : Nat
  originalData : String
  history : List String
deriving DecidableEq

/-- The application state cells of the core. -/
structure AppState where
  imageForAd : Option ImageData
  styleImage : Option ImageData
  logoImage : Option ImageData
  adCopy : AdCopy
  skipAdCopy : Bool
  generatedAds : List String
  isGeneratingAds : Bool
  regeneratingIndex : Option Nat
  loadingMessage : String
  error : Option String
  editingAd : Option EditingAd
  editPrompt : String
  isEditing : Bool
deriving DecidableEq

/-- JS `String.prototype.trim` whitespace (modelled for the ASCII white
space and line terminators; the prompts compared in the claims are
ASCII). -/
def jsWhitespace (c : Char) : Bool :=
  c = ' ' || c = '\t' || c = '\n' || c = '\r' ||
  c = Char.ofNat 0x0b || c = Char.ofNat 0x0c

/-- JS `String.prototype.trim`: strip leading and trailing
whitespace. -/
def jsTrim (s : String) : String :=
  String.mk (((s.toList.dropWhile jsWhitespace).reverse.dropWhile jsWhitespace).reverse)

/-- Model of `isFormValid` (App.tsx:54-57); JS truthiness on the copy strings is
non-emptiness. -/
def isFormValid (s : AppState) : Bool :=
  let copyIsValid := s.skipAdCopy || (s.adCopy.headline != "" && s.adCopy.description != "")
  s.imageForAd.isSome && s.styleImage.isSome && s.logoImage.isSome && copyIsValid

/-- Model of `handleSubmit` (App.tsx:105-128).  On the guarded path it returns
after setting the error text; otherwise it clears the result array,
awaits `generateAds` (outcome abstracted), stores the ads or the
failure, and the `finally` block clears the busy flag and the loading
message.  The boolean reports whether a batch provider call was
started. -/
def handleSubmit (s : AppState) (outcome : Except String (List String)) :
    AppState × Bool :=
  if !isFormValid s || s.imageForAd.isNone || s.styleImage.isNone ||
      s.logoImage.isNone || s.regeneratingIndex.isSome then
    ({ s with error := some "Please fill out all required fields and upload all required images." }, false)
  else
    match outcome with
    | .ok ads =>
      ({ s with isGeneratingAds := false, loadingMessage := "",
                error := none, generatedAds := ads }, true)
    | .error m =>
      ({ s with isGeneratingAds := false, loadingMessage := "",
                error := some m, generatedAds := [] }, true)

/-- The disabled condition of the submit button (App.tsx:449). -/
def submitDisabled (s : AppState) : Bool :=
  !isFormValid s || s.isGeneratingAds || s.regeneratingIndex.isSome

/-- A user click on the submit button: disabled buttons do nothing. -/
def clickSubmit (s : AppState) (outcome : Except String (List String)) :
    AppState × Bool :=
  if submitDisabled s then (s, false) else handleSubmit s outcome

/-- Model of `handleRegenerateAd` (App.tsx:130-165).  The second component is the
index of the creative direction a provider call was started for (`none`
when no call was made).  An out-of-range index makes
`styleVariations[index]` undefined; the thrown error is caught by the
same catch block and the `finally` block clears the flag. -/
def handleRegenerateAd (s : AppState) (index : Nat)
    (outcome : Except String String) : AppState × Option Nat :=
  if s.isGeneratingAds || s.regeneratingIndex.isSome || s.imageForAd.isNone ||
      s.styleImage.isNone || s.logoImage.isNone then
    (s, none)
  else
    match styleVariations.get? index with
    | none =>
      ({ s with error := some ("Invalid creative direction index: " ++ toString index),
                regeneratingIndex := none }, none)
    | some creativeDirection =>
      if creativeDirection = "" then
        ({ s with error := some ("Invalid creative direction index: " ++ toString index),
                  regeneratingIndex := none }, none)
      else
        match outcome with
        | .ok newAd =>
          ({ s with generatedAds := s.generatedAds.set index newAd,
                    error := none, regeneratingIndex := none }, some index)
        | .error m =>
          ({ s with error := some m, regeneratingIndex := none }, some index)

/-- Reachability of the per-slot regenerate buttons: `ResultsDisplay` is
rendered only on App.tsx:530 (no batch in progress, no error shown, no
open edit session, non-empty results), and each button is disabled while
any regeneration is in flight (`isAnyRegenerating`). -/
def clickRegenerate (s : AppState) (index : Nat)
    (outcome : Except String String) : AppState × Option Nat :=
  if s.isGeneratingAds || s.error.isSome || s.editingAd.isSome ||
      s.generatedAds.isEmpty || s.regeneratingIndex.isSome then
    (s, none)
  else handleRegenerateAd s index outcome

/-- Model of `handleSelectAdForEdit` (App.tsx:168-175): snapshot the slot value
as both the original and the sole history entry. -/
def handleSelectAdForEdit (s : AppState) (index : Nat) : AppState :=
  let adData := (s.generatedAds.get? index).getD ""
  { s with editingAd := some { index := index, originalData := adData, history := [adData] } }

/-- Model of `handleApplyEdit` (App.tsx:183-207).  The second component is the
provider request `(baseImage, prompt)` passed to `editAd` (`none` when
the handler returned on its guard).  On success the new value is written
into the shared slot, appended to the history, and the prompt input is
cleared; on failure only the error cell changes; the `finally` block
clears the busy flag either way. -/
def handleApplyEdit (s : AppState) (outcome : Except String String) :
    AppState × Option (String × String) :=
  match s.editingAd with
  | none => (s, none)
  | some ed =>
    if jsTrim s.editPrompt = "" then (s, none)
    else
      let currentImage := (ed.history.getLast?).getD ""
      match outcome with
      | .ok newAdData =>
        ({ s with generatedAds := s.generatedAds.set ed.index newAdData,
                  editingAd := some { ed with history := ed.history ++ [newAdData] },
                  editPrompt := "", error := none, isEditing := false },
         some (currentImage, s.editPrompt))
      | .error m =>
        ({ s with error := some m, isEditing := false },
         some (currentImage, s.editPrompt))

/-- The disabled condition of the Apply Edit button (App.tsx:503). -/
def applyEditDisabled (s : AppState) : Bool :=
  jsTrim s.editPrompt = "" || s.isEditing || s.isGeneratingAds || s.regeneratingIndex.isSome

/-- A user click on the Apply Edit button: disabled buttons do
nothing. -/
def clickApplyEdit (s : AppState) (outcome : Except String String) :
    AppState × Option (String × String) :=
  if applyEditDisabled s then (s, none) else handleApplyEdit s outcome

/-- Model of `handleUndoEdit` (App.tsx:209-220): a no-op on a history of length
at most one, otherwise drop the last entry and write the new last entry
into the shared slot. -/
def handleUndoEdit (s : AppState) : AppState :=
  match s.editingAd with
  | none => s
  | some ed =>
    if ed.history.length ≤ 1 then s
    else
      let newHistory := ed.history.dropLast
      let previousAdData := (newHistory.getLast?).getD ""
      { s with generatedAds := s.generatedAds.set ed.index previousAdData,
               editingAd := some { ed with history := newHistory } }

/-- Model of `handleRevertToOriginal` (App.tsx:222-232): a no-op on a history of
length at most one, otherwise truncate the history to the original and
write the original into the shared slot. -/
def handleRevertToOriginal (s : AppState) : AppState :=
  match s.editingAd with
  | none => s
  | some ed =>
    if ed.history.length ≤ 1 then s
    else
      { s with generatedAds := s.generatedAds.set ed.index ed.originalData,
               editingAd := some { ed with history := [ed.originalData] } }

/-! ## Theorems

Helper lemmas are shared; each claim has exactly one main theorem. -/

/-- Unfolding lemma: success on the first attempt. -/
theorem withRetries_ok0 (op : Nat → Except RawError α) (v : α) (h : op 0 = .ok v) :
    withRetries op = (.ok v, 1) := by
  simp [withRetries, MAX_RETRIES, withRetriesGo, h]

/-- Unfolding lemma: failure then success on the second attempt. -/
theorem withRetries_ok1 (op : Nat → Except RawError α) (e0 : RawError) (v : α)
    (h0 : op 0 = .error e0) (h1 : op 1 = .ok v) :
    withRetries op = (.ok v, 2) := by
  simp [withRetries, MAX_RETRIES, withRetriesGo, h0, h1]

/-- Unfolding lemma: two failures then success on the third attempt. -/
theorem withRetries_ok2 (op : Nat → Except RawError α) (e0 e1 : RawError) (v : α)
    (h0 : op 0 = .error e0) (h1 : op 1 = .error e1) (h2 : op 2 = .ok v) :
    withRetries op = (.ok v, 3) := by
  simp [withRetries, MAX_RETRIES, withRetriesGo, h0, h1, h2]

/-- Unfolding lemma: all three attempts fail; the classifier runs on the
last error. -/
theorem withRetries_err3 (op : Nat → Except RawError α) (e0 e1 e2 : RawError)
    (h0 : op 0 = .error e0) (h1 : op 1 = .error e1) (h2 : op 2 = .error e2) :
    withRetries op = (.error (handleGeminiError e2), 3) := by
  simp [withRetries, MAX_RETRIES, withRetriesGo, h0, h1, h2]

/-- C2.  `withRetries` invokes the wrapped operation at most
`MAX_RETRIES = 3` times; if the attempts before 0-based index `k`
fail and attempt `k` succeeds, it returns that result after exactly
`k + 1` invocations; if all three attempts fail, it surfaces exactly the
one classified failure built from the error of the last attempt. -/
theorem withRetries_bounded_retry (op : Nat → Except RawError α) :
    (withRetries op).2 ≤ MAX_RETRIES ∧
    (∀ k v, k < MAX_RETRIES → (∀ j, j < k → ∃ e, op j = .error e) →
      op k = .ok v → withRetries op = (.ok v, k + 1)) ∧
    (∀ e0 e1 e2, op 0 = .error e0 → op 1 = .error e1 → op 2 = .error e2 →
      withRetries op = (.error (handleGeminiError e2), MAX_RETRIES)) := by
  refine ⟨?_, ?_, ?_⟩
  · cases h0 : op 0 with
    | ok v => simp [withRetries_ok0 op v h0, MAX_RETRIES]
    | error e0 =>
      cases h1 : op 1 with
      | ok v => simp [withRetries_ok1 op e0 v h0 h1, MAX_RETRIES]
      | error e1 =>
        cases h2 : op 2 with
        | ok v => simp [withRetries_ok2 op e0 e1 v h0 h1 h2, MAX_RETRIES]
        | error e2 => simp [withRetries_err3 op e0 e1 e2 h0 h1 h2, MAX_RETRIES]
  · intro k v hk hfail hok
    have hk' : k < 3 := by simpa [MAX_RETRIES] using hk
    interval_cases k
    · exact withRetries_ok0 op v hok
    · obtain ⟨e0, h0⟩ := hfail 0 (by omega)
      exact withRetries_ok1 op e0 v h0 hok
    · obtain ⟨e0, h0⟩ := hfail 0 (by omega)
      obtain ⟨e1, h1⟩ := hfail 1 (by omega)
      exact withRetries_ok2 op e0 e1 v h0 h1 hok
  · intro e0 e1 e2 h0 h1 h2
    exact withRetries_err3 op e0 e1 e2 h0 h1 h2

/-- Witness for C2: one failure, then success on the second attempt. -/
theorem withRetries_bounded_retry_witness :
    withRetries (fun i => if i = 0 then .error .other else (.ok 7 : Except RawError Nat)) =
      (.ok 7, 2) := by
  exact (withRetries_bounded_retry
      (fun i => if i = 0 then .error .other else (.ok 7 : Except RawError Nat))).2.1 1 7
    (by decide)
    (fun j hj => ⟨.other, by
      have hj0 : j = 0 := by omega
      subst hj0; rfl⟩)
    rfl

/-! ### C8 / C9 — classifier category messages -/

/-- The quota-exhaustion payload of claim C8. -/
def quotaPayload : String :=
  "\x7b\"error\":\x7b\"status\":\"RESOURCE_EXHAUSTED\",\"message\":\"x\"\x7d\x7d"

/-- A raw failure message that contains `quotaPayload` as a substring but
whose brace-to-brace extraction span is not parseable JSON. -/
def c8Message : String := "\x7bx\x7d " ++ quotaPayload

/-- Counterexample to C8 as stated: every attempt fails with an error
whose message contains the quota JSON payload, yet the final surfaced
message is the generic fallback — the extraction span runs from the
first opening brace of the whole message, `JSON.parse` fails on it, and
the quota branch is never reached.  The rate-limit link is absent from
the surfaced message. -/
theorem quota_containment_counterexample :
    hasSub quotaPayload.toList c8Message.toList = true ∧
    withRetries (fun _ => (.error (.err c8Message) : Except RawError String)) =
      (.error unexpectedMsg, 3) ∧
    unexpectedMsg ≠ quotaMsg ∧
    hasSub "https://ai.google.dev/gemini-api/docs/rate-limits".toList
      unexpectedMsg.toList = false := by
  refine ⟨by decide, ?_, by decide, by decide⟩
  have h := withRetries_err3
    (fun _ => (.error (.err c8Message) : Except RawError String))
    (.err c8Message) (.err c8Message) (.err c8Message) rfl rfl rfl
  rw [h]
  rfl

/-- C8 (amended).  If every attempt fails with an error where the
JSON extraction span of the message — the substring from the first opening brace to the
last closing brace — is exactly the quota payload, the final surfaced
message is the quota-exceeded category message; that message carries the
rate-limit reference link and differs from the generic provider-error
message built from the status code and message text. -/
theorem quota_exhausted_final_message (raw : String)
    (op : Nat → Except RawError String)
    (hspan : jsonSpan raw = some quotaPayload)
    (hop : ∀ i, i < MAX_RETRIES → op i = .error (.err raw)) :
    withRetries op = (.error quotaMsg, 3) ∧
    hasSub "https://ai.google.dev/gemini-api/docs/rate-limits".toList
      quotaMsg.toList = true ∧
    quotaMsg ≠ "We have encountered problems in generating your assets. Error Code: RESOURCE_EXHAUSTED. Message: x" := by
  refine ⟨?_, by decide, by decide⟩
  have h := withRetries_err3 op (.err raw) (.err raw) (.err raw)
    (hop 0 (by decide)) (hop 1 (by decide)) (hop 2 (by decide))
  rw [h]
  have hmsg : handleGeminiError (.err raw) = quotaMsg := by
    simp only [handleGeminiError]
    rw [hspan]
    rfl
  rw [hmsg]

/-- Witness for C8 (amended): the raw message is the payload itself. -/
theorem quota_exhausted_final_message_witness :
    withRetries (fun _ => (.error (.err quotaPayload) : Except RawError String)) =
      (.error quotaMsg, 3) :=
  (quota_exhausted_final_message quotaPayload
    (fun _ => (.error (.err quotaPayload) : Except RawError String))
    (by rfl) (fun i _ => rfl)).1

/-- Counterexample to C9 as stated: every attempt fails with an error
whose raw message text contains "safety", but carries no JSON payload;
the final surfaced message is the transport-path message that embeds the
raw text, not the policy-violation category message. -/
theorem safety_raw_counterexample :
    hasSub "safety".toList (strLower "safety problem").toList = true ∧
    withRetries (fun _ => (.error (.err "safety problem") : Except RawError String)) =
      (.error "We have encountered problems in generating your assets: safety problem", 3) ∧
    "We have encountered problems in generating your assets: safety problem" ≠ policyMsg := by
  refine ⟨by decide, ?_, by decide⟩
  have h := withRetries_err3
    (fun _ => (.error (.err "safety problem") : Except RawError String))
    (.err "safety problem") (.err "safety problem") (.err "safety problem") rfl rfl rfl
  rw [h]
  rfl

/-- C9 (amended).  If every attempt fails with an error whose message
carries an extractable JSON error payload whose `error.message` contains
"safety" in any letter case and whose status is not RESOURCE_EXHAUSTED,
the final surfaced message is the fixed policy-violation category
message. -/
theorem safety_parsed_final_message (raw span status msg : String)
    (op : Nat → Except RawError String)
    (hspan : jsonSpan raw = some span)
    (hext : extractError span = some (status, msg))
    (hstatus : status ≠ "RESOURCE_EXHAUSTED")
    (hsafety : hasSub "safety".toList (strLower msg).toList = true)
    (hop : ∀ i, i < MAX_RETRIES → op i = .error (.err raw)) :
    withRetries op = (.error policyMsg, 3) := by
  have h := withRetries_err3 op (.err raw) (.err raw) (.err raw)
    (hop 0 (by decide)) (hop 1 (by decide)) (hop 2 (by decide))
  rw [h]
  have hmsg : handleGeminiError (.err raw) = policyMsg := by
    simp only [handleGeminiError]
    rw [hspan]
    simp only []
    rw [hext]
    simp only []
    rw [if_neg hstatus, if_pos hsafety]
  rw [hmsg]

/-- Witness for C9 (amended): a typical provider safety payload, with
the numeric `code` field alongside the string `status` and `message`. -/
theorem safety_parsed_final_message_witness :
    withRetries (fun _ =>
        (.error (.err "\x7b\"error\":\x7b\"code\":429,\"status\":\"X\",\"message\":\"Safety block\"\x7d\x7d") :
          Except RawError String)) =
      (.error policyMsg, 3) :=
  safety_parsed_final_message
    "\x7b\"error\":\x7b\"code\":429,\"status\":\"X\",\"message\":\"Safety block\"\x7d\x7d"
    "\x7b\"error\":\x7b\"code\":429,\"status\":\"X\",\"message\":\"Safety block\"\x7d\x7d"
    "X" "Safety block" _ (by rfl) (by rfl) (by decide) (by decide) (fun i _ => rfl)

/-! ### C10 — editAd rejects malformed data URLs before any provider call -/

/-- Lemma: `leadsWith` is prefix decomposition. -/
theorem leadsWith_iff (pre l : List Char) :
    leadsWith pre l = true ↔ ∃ t, l = pre ++ t := by
  induction pre generalizing l with
  | nil => simp [leadsWith]
  | cons p ps ih =>
    cases l with
    | nil =>
      simp [leadsWith]
    | cons c rest =>
      simp only [leadsWith, Bool.and_eq_true, decide_eq_true_eq, ih, List.cons_append,
        List.cons.injEq]
      constructor
      · rintro ⟨hpc, t, ht⟩
        exact ⟨t, hpc.symm, ht⟩
      · rintro ⟨t, hcp, ht⟩
        exact ⟨hcp.symm, t, ht⟩

/-- Any successful run of the data-URL matcher exhibits the data-URL
shape. -/
theorem matchesDataUrl_of_some (s : String) (mt d : String)
    (h : dataUrlMatch s = some (mt, d)) : MatchesDataUrl s := by
  unfold dataUrlMatch at h
  by_cases hpre : leadsWith dataUrlLead s.toList = true
  · rw [if_pos hpre] at h
    obtain ⟨t, ht⟩ := (leadsWith_iff _ _).mp hpre
    set rest := s.toList.drop dataUrlLead.length with hrest
    cases hlast : (dataUrlSplits rest).getLast? with
    | none => rw [hlast] at h; exact absurd h (by simp)
    | some k =>
      rw [hlast] at h
      have hkmem := List.mem_of_mem_getLast? hlast
      rw [dataUrlSplits, List.mem_filter] at hkmem
      obtain ⟨hkrange, hkprop⟩ := hkmem
      simp only [Bool.and_eq_true, decide_eq_true_eq] at hkprop
      obtain ⟨⟨⟨⟨hk1, hksep⟩, hklen⟩, -⟩, -⟩ := hkprop
      obtain ⟨u, hu⟩ := (leadsWith_iff _ _).mp hksep
      refine ⟨rest.take k, rest.drop (k + b64sep.length), ?_, ?_, ?_⟩
      · have hlt : (rest.take k).length = k := by
          rw [List.length_take]
          omega
        intro hnil
        rw [hnil] at hlt
        simp at hlt
        omega
      · have hld : (rest.drop (k + b64sep.length)).length =
            rest.length - (k + b64sep.length) := by
          rw [List.length_drop]
        intro hnil
        rw [hnil] at hld
        simp at hld
        omega
      · have hu' : u = rest.drop (k + b64sep.length) := by
          have hdrop := congrArg (List.drop b64sep.length) hu
          rw [List.drop_left] at hdrop
          rw [← hdrop, List.drop_drop]
        have hrt : rest = rest.take k ++ (b64sep ++ rest.drop (k + b64sep.length)) := by
          conv_lhs => rw [← List.take_append_drop k rest]
          rw [hu, hu']
        have htrest : t = rest := by
          rw [hrest, ht, List.drop_left]
        calc s.toList = dataUrlLead ++ t := ht
          _ = dataUrlLead ++ rest.take k ++ b64sep ++ rest.drop (k + b64sep.length) := by
              rw [htrest]
              conv_lhs => rw [hrt]
              simp [List.append_assoc]
  · rw [if_neg hpre] at h
    exact absurd h (by simp)

/-- C10.  A base image that does not have the data-URL shape
`data:image/<subtype>;base64,<payload>` makes `editAd` fail immediately
with the fixed message, with zero provider invocations — the retry
wrapper is never entered. -/
theorem editAd_rejects_invalid (baseImage : String)
    (op : Nat → Except RawError String) (h : ¬ MatchesDataUrl baseImage) :
    editAd baseImage op = (.error "Invalid base image data URL format.", 0) := by
  cases hm : dataUrlMatch baseImage with
  | none => unfold editAd; rw [hm]
  | some p =>
    exact absurd (matchesDataUrl_of_some baseImage p.1 p.2 (by rw [hm])) h

/-- Witness for C10: the empty string is not a data URL. -/
theorem editAd_rejects_invalid_witness :
    editAd "" (fun _ => .ok "img") = (.error "Invalid base image data URL format.", 0) := by
  apply editAd_rejects_invalid
  rintro ⟨a, b, _, _, hdec⟩
  have h0 : ("" : String).toList = ([] : List Char) := rfl
  rw [h0] at hdec
  have hlen := congrArg List.length hdec
  have hl1 : dataUrlLead.length = 11 := rfl
  have hl2 : b64sep.length = 8 := rfl
  simp [List.length_append, hl1, hl2] at hlen
  omega

/-! ### C1 — batch fan-out is all-or-nothing and order-preserving -/

/-- If no scanned position holds a rejection, the scan finds none. -/
theorem firstSettledRejection_eq_none {ps : List (Except ε α)} {order : List Nat}
    (h : ∀ i ∈ order, ∀ e, ps.get? i ≠ some (.error e)) :
    firstSettledRejection ps order = none := by
  induction order with
  | nil => rfl
  | cons i rest ih =>
    have hstep : ∀ j ∈ rest, ∀ e, ps.get? j ≠ some (.error e) :=
      fun j hj => h j (by simp [hj])
    rw [firstSettledRejection]
    cases hg : ps.get? i with
    | none => exact ih hstep
    | some x =>
      cases x with
      | ok a => exact ih hstep
      | error e => exact absurd hg (h i (by simp) e)

/-- A found rejection sits at some scanned position. -/
theorem firstSettledRejection_mem {ps : List (Except ε α)} {order : List Nat} {e : ε}
    (h : firstSettledRejection ps order = some e) :
    ∃ i ∈ order, ps.get? i = some (.error e) := by
  induction order with
  | nil => simp [firstSettledRejection] at h
  | cons i rest ih =>
    rw [firstSettledRejection] at h
    cases hg : ps.get? i with
    | none =>
      rw [hg] at h
      obtain ⟨j, hj, hje⟩ := ih h
      exact ⟨j, by simp [hj], hje⟩
    | some x =>
      cases x with
      | ok a =>
        rw [hg] at h
        obtain ⟨j, hj, hje⟩ := ih h
        exact ⟨j, by simp [hj], hje⟩
      | error e0 =>
        rw [hg] at h
        obtain rfl : e0 = e := by simpa using h
        exact ⟨i, by simp, hg⟩

/-- A rejection at a scanned position makes the scan find one. -/
theorem firstSettledRejection_isSome {ps : List (Except ε α)} {order : List Nat}
    {i : Nat} {e : ε} (hmem : i ∈ order) (hi : ps.get? i = some (.error e)) :
    ∃ f, firstSettledRejection ps order = some f := by
  induction order with
  | nil => simp at hmem
  | cons j rest ih =>
    rw [firstSettledRejection]
    cases hg : ps.get? j with
    | none =>
      rw [List.mem_cons] at hmem
      rcases hmem with rfl | hmem
      · rw [hg] at hi; exact absurd hi (by simp)
      · exact ih hmem
    | some x =>
      cases x with
      | ok a =>
        rw [List.mem_cons] at hmem
        rcases hmem with rfl | hmem
        · rw [hg] at hi; simp at hi
        · exact ih hmem
      | error e0 => exact ⟨e0, rfl⟩

/-- Collecting a list of fulfilled outcomes yields the values in
position order. -/
theorem collectOk_map_ok (rs : List α) :
    collectOk (rs.map (Except.ok : α → Except ε α)) = .ok rs := by
  induction rs with
  | nil => rfl
  | cons r rest ih => simp [collectOk, ih]

/-- A list of outcomes that are all fulfilled is a mapped value list. -/
theorem all_ok_decomp (ps : List (Except ε α)) (h : ∀ p ∈ ps, ∃ r, p = .ok r) :
    ∃ rs : List α, ps = rs.map (Except.ok : α → Except ε α) := by
  induction ps with
  | nil => exact ⟨[], rfl⟩
  | cons p rest ih =>
    obtain ⟨r, hr⟩ := h p (by simp)
    obtain ⟨rs, hrs⟩ := ih (fun q hq => h q (by simp [hq]))
    exact ⟨r :: rs, by rw [List.map_cons, hr, hrs]⟩

/-- C1.  The direction list has exactly 3 entries.  When the wrapped
call for every direction succeeds, `generateAds` returns, for any
completion order, the list of per-direction results in direction order
(`styleVariations.map gen = rs.map Except.ok` says result `i` is the
output of the call for direction `i`).  When the call for one direction
fails and every other direction succeeds, `generateAds` fails with
exactly that failure.  In general, as soon as any direction fails, the
whole call fails with the failure of some failing direction — no partial
result list is returned. -/
theorem generateAds_all_or_nothing (gen : String → Except String String)
    (order : List Nat) (hperm : order.Perm (List.range styleVariations.length)) :
    styleVariations.length = 3 ∧
    ((∀ v ∈ styleVariations, ∃ r, gen v = .ok r) →
      ∃ rs, generateAds gen order = .ok rs ∧
        styleVariations.map gen = rs.map Except.ok) ∧
    (∀ i v e, styleVariations.get? i = some v → gen v = .error e →
      (∀ j w, styleVariations.get? j = some w → j ≠ i → ∃ r, gen w = .ok r) →
      generateAds gen order = .error e) ∧
    (∀ i v e, styleVariations.get? i = some v → gen v = .error e →
      ∃ f, generateAds gen order = .error f ∧
        ∃ j w, styleVariations.get? j = some w ∧ gen w = .error f) := by
  have hmemorder : ∀ i, i < styleVariations.length → i ∈ order := by
    intro i hi
    rw [hperm.mem_iff, List.mem_range]
    exact hi
  have hget : ∀ i, (styleVariations.map gen).get? i = (styleVariations.get? i).map gen :=
    fun i => List.get?_map gen styleVariations i
  refine ⟨rfl, ?_, ?_, ?_⟩
  · intro hok
    obtain ⟨rs, hrs⟩ := all_ok_decomp (styleVariations.map gen) (by
      intro p hp
      rw [List.mem_map] at hp
      obtain ⟨v, hv, rfl⟩ := hp
      exact hok v hv)
    refine ⟨rs, ?_, hrs⟩
    have hnone : firstSettledRejection (styleVariations.map gen) order = none := by
      apply firstSettledRejection_eq_none
      intro i _ e hcontra
      rw [hrs, List.get?_map] at hcontra
      cases hrg : rs.get? i with
      | none => rw [hrg] at hcontra; simp at hcontra
      | some r => rw [hrg] at hcontra; simp at hcontra
    rw [generateAds, promiseAll, hnone, hrs, collectOk_map_ok]
  · intro i v e hv hgen hothers
    have hi : i < styleVariations.length := (List.get?_eq_some.mp hv).choose
    have hpi : (styleVariations.map gen).get? i = some (.error e) := by
      rw [hget, hv]
      simp [hgen]
    obtain ⟨f, hf⟩ := firstSettledRejection_isSome (hmemorder i hi) hpi
    obtain ⟨j, hjmem, hje⟩ := firstSettledRejection_mem hf
    have hj : j < styleVariations.length := by
      have hmem := hperm.mem_iff.mp hjmem
      rw [List.mem_range] at hmem
      exact hmem
    have hw : styleVariations.get? j = some (styleVariations.get ⟨j, hj⟩) :=
      List.get?_eq_get hj
    have hgw : gen (styleVariations.get ⟨j, hj⟩) = .error f := by
      rw [hget, hw] at hje
      simpa using hje
    have hji : j = i := by
      by_contra hne
      obtain ⟨r, hr⟩ := hothers j (styleVariations.get ⟨j, hj⟩) hw hne
      rw [hr] at hgw
      simp at hgw
    subst hji
    rw [hv] at hw
    obtain rfl : v = styleVariations.get ⟨j, hj⟩ := by simpa using hw
    rw [hgen] at hgw
    obtain rfl : e = f := by simpa using hgw
    rw [generateAds, promiseAll, hf]
  · intro i v e hv hgen
    have hi : i < styleVariations.length := (List.get?_eq_some.mp hv).choose
    have hpi : (styleVariations.map gen).get? i = some (.error e) := by
      rw [hget, hv]
      simp [hgen]
    obtain ⟨f, hf⟩ := firstSettledRejection_isSome (hmemorder i hi) hpi
    obtain ⟨j, hjmem, hje⟩ := firstSettledRejection_mem hf
    have hj : j < styleVariations.length := by
      have hmem := hperm.mem_iff.mp hjmem
      rw [List.mem_range] at hmem
      exact hmem
    have hw : styleVariations.get? j = some (styleVariations.get ⟨j, hj⟩) :=
      List.get?_eq_get hj
    have hgw : gen (styleVariations.get ⟨j, hj⟩) = .error f := by
      rw [hget, hw] at hje
      simpa using hje
    exact ⟨f, by rw [generateAds, promiseAll, hf], j, _, hw, hgw⟩

/-- Witness for C1: every direction succeeds through the retry wrapper,
and the three results come back in direction order regardless of the
reversed completion order. -/
theorem generateAds_all_or_nothing_witness :
    ∃ rs, generateAds
        (fun _ => (withRetries (fun _ => (.ok "r" : Except RawError String))).1)
        [2, 1, 0] = .ok rs ∧
      styleVariations.map
        (fun _ => (withRetries (fun _ => (.ok "r" : Except RawError String))).1) =
        rs.map Except.ok := by
  have hperm : ([2, 1, 0] : List Nat).Perm (List.range styleVariations.length) := by
    have hr : List.range styleVariations.length = [0, 1, 2] := rfl
    rw [hr]
    decide
  exact (generateAds_all_or_nothing _ [2, 1, 0] hperm).2.1 (fun v _ => ⟨"r", rfl⟩)

/-! ### C4 / C5 — regeneration coordinator -/

/-- C4.  While a regeneration is in flight (`regeneratingIndex = some i`),
a regeneration request for any index `j` — including `j = i` — returns
without touching the state and without starting a provider call. -/
theorem regen_request_rejected_while_busy (s : AppState) (i j : Nat)
    (o : Except String String) (h : s.regeneratingIndex = some i) :
    handleRegenerateAd s j o = (s, none) ∧
    (handleRegenerateAd s j o).1.generatedAds = s.generatedAds ∧
    (handleRegenerateAd s j o).2 = none := by
  have hs : s.regeneratingIndex.isSome = true := by rw [h]; rfl
  refine ⟨?_, ?_, ?_⟩ <;> simp [handleRegenerateAd, hs]

/-- Witness for C4: a concrete busy state. -/
theorem regen_request_rejected_while_busy_witness :
    handleRegenerateAd
      { imageForAd := some { data := "d", mimeType := "image/png" },
        styleImage := some { data := "d", mimeType := "image/png" },
        logoImage := some { data := "d", mimeType := "image/png" },
        adCopy := { headline := "h", description := "de", cta := "c" },
        skipAdCopy := false, generatedAds := ["A", "B", "C"],
        isGeneratingAds := false, regeneratingIndex := some 1,
        loadingMessage := "", error := none, editingAd := none,
        editPrompt := "", isEditing := false }
      1 (.ok "new") =
      ({ imageForAd := some { data := "d", mimeType := "image/png" },
         styleImage := some { data := "d", mimeType := "image/png" },
         logoImage := some { data := "d", mimeType := "image/png" },
         adCopy := { headline := "h", description := "de", cta := "c" },
         skipAdCopy := false, generatedAds := ["A", "B", "C"],
         isGeneratingAds := false, regeneratingIndex := some 1,
         loadingMessage := "", error := none, editingAd := none,
         editPrompt := "", isEditing := false }, none) :=
  (regen_request_rejected_while_busy _ 1 1 (.ok "new") rfl).1

/-- Every creative direction is a non-empty string. -/
theorem styleVariations_ne_empty : ∀ v ∈ styleVariations, v ≠ "" := by
  intro v hv
  fin_cases hv <;> decide

/-- C5.  A regeneration of an in-range slot `i`, started from an idle
coordinator, always returns the coordinator to idle, and either replaces
slot `i` with the new result leaving every other slot unchanged, or — on
failure — leaves the whole result array unchanged and surfaces the
classified failure. -/
theorem regen_slot_outcomes (s : AppState) (i : Nat) (o : Except String String)
    (hb : s.isGeneratingAds = false) (hr : s.regeneratingIndex = none)
    (h1 : s.imageForAd.isSome = true) (h2 : s.styleImage.isSome = true)
    (h3 : s.logoImage.isSome = true) (hi : i < styleVariations.length)
    (hlen : i < s.generatedAds.length) :
    (handleRegenerateAd s i o).1.regeneratingIndex = none ∧
    (∀ newAd, o = .ok newAd →
      (handleRegenerateAd s i o).1.generatedAds.get? i = some newAd ∧
      ∀ j, j ≠ i →
        (handleRegenerateAd s i o).1.generatedAds.get? j = s.generatedAds.get? j) ∧
    (∀ m, o = .error m →
      (handleRegenerateAd s i o).1.generatedAds = s.generatedAds ∧
      (handleRegenerateAd s i o).1.error = some m) := by
  have hcd : styleVariations.get? i = some (styleVariations.get ⟨i, hi⟩) :=
    List.get?_eq_get hi
  have hcdne : styleVariations.get ⟨i, hi⟩ ≠ "" :=
    styleVariations_ne_empty _ (List.get_mem styleVariations i hi)
  have hguard :
      (s.isGeneratingAds || s.regeneratingIndex.isSome || s.imageForAd.isNone ||
        s.styleImage.isNone || s.logoImage.isNone) = false := by
    rw [hb, hr]
    cases himg : s.imageForAd with
    | none => rw [himg] at h1; simp at h1
    | some im =>
      cases hsty : s.styleImage with
      | none => rw [hsty] at h2; simp at h2
      | some st =>
        cases hlg : s.logoImage with
        | none => rw [hlg] at h3; simp at h3
        | some lg => rfl
  cases o with
  | ok newAd =>
    have hred : handleRegenerateAd s i (.ok newAd) =
        ({ s with generatedAds := s.generatedAds.set i newAd,
                  error := none, regeneratingIndex := none }, some i) := by
      rw [handleRegenerateAd, if_neg (by rw [hguard]; exact Bool.false_ne_true), hcd]
      simp only []
      rw [if_neg hcdne]
    refine ⟨by rw [hred], ?_, ?_⟩
    · intro a ha
      obtain rfl : newAd = a := by simpa using ha
      rw [hred]
      refine ⟨?_, ?_⟩
      · simpa using List.getElem?_set_eq_of_lt newAd hlen
      · intro j hj
        have hij : i ≠ j := fun hij2 => hj hij2.symm
        simpa using List.getElem?_set_ne hij
    · intro m hm
      simp at hm
  | error m =>
    have hred : handleRegenerateAd s i (.error m) =
        ({ s with error := some m, regeneratingIndex := none }, some i) := by
      rw [handleRegenerateAd, if_neg (by rw [hguard]; exact Bool.false_ne_true), hcd]
      simp only []
      rw [if_neg hcdne]
    refine ⟨by rw [hred], ?_, ?_⟩
    · intro a ha
      simp at ha
    · intro m2 hm2
      obtain rfl : m = m2 := by simpa using hm2
      rw [hred]
      exact ⟨rfl, rfl⟩

/-- Witness for C5: a successful regeneration of slot 1 in a concrete
idle state. -/
theorem regen_slot_outcomes_witness :
    (handleRegenerateAd
        { imageForAd := some { data := "d", mimeType := "image/png" },
          styleImage := some { data := "d", mimeType := "image/png" },
          logoImage := some { data := "d", mimeType := "image/png" },
          adCopy := { headline := "h", description := "de", cta := "c" },
          skipAdCopy := false, generatedAds := ["A", "B", "C"],
          isGeneratingAds := false, regeneratingIndex := none,
          loadingMessage := "", error := none, editingAd := none,
          editPrompt := "", isEditing := false }
        1 (.ok "N")).1.generatedAds.get? 1 = some "N" :=
  (((regen_slot_outcomes
      { imageForAd := some { data := "d", mimeType := "image/png" },
        styleImage := some { data := "d", mimeType := "image/png" },
        logoImage := some { data := "d", mimeType := "image/png" },
        adCopy := { headline := "h", description := "de", cta := "c" },
        skipAdCopy := false, generatedAds := ["A", "B", "C"],
        isGeneratingAds := false, regeneratingIndex := none,
        loadingMessage := "", error := none, editingAd := none,
        editPrompt := "", isEditing := false }
      1 (.ok "N") rfl rfl rfl rfl rfl (by decide)
      (by decide)).2.1 "N" rfl)).1

/-! ### C3 — busy-flag discipline (corrected) -/

/-- A concrete state with a valid form, idle batch/regeneration flags,
and an edit apply in flight on slot 0. -/
def editBusyState : AppState :=
  { imageForAd := some { data := "d", mimeType := "image/png" },
    styleImage := some { data := "d", mimeType := "image/png" },
    logoImage := some { data := "d", mimeType := "image/png" },
    adCopy := { headline := "", description := "", cta := "" },
    skipAdCopy := true, generatedAds := ["A", "B", "C"],
    isGeneratingAds := false, regeneratingIndex := none,
    loadingMessage := "", error := none,
    editingAd := some { index := 0, originalData := "A", history := ["A"] },
    editPrompt := "make it pop", isEditing := true }

/-- Counterexample to C3 as stated: with an edit apply in flight
(`isEditing = true`), a submit click is not rejected — `handleSubmit`
checks only form validity and the regeneration flag, and the submit
disabled condition of the submit button does not include the edit flag — so a batch
provider call starts and the shared result array is reset while the
edit-in-progress flag is set. -/
theorem submit_during_edit_counterexample :
    editBusyState.isEditing = true ∧
    (clickSubmit editBusyState (.ok ["X", "Y", "Z"])).2 = true ∧
    (clickSubmit editBusyState (.ok ["X", "Y", "Z"])).1.generatedAds ≠
      editBusyState.generatedAds := by
  refine ⟨rfl, rfl, by decide⟩

/-- C3 (amended).  The discipline the handlers and button guards do
enforce: a regeneration request is rejected while batch generation or
another regeneration is in flight; a regenerate click is additionally
unreachable while an edit session is open; a submit click is rejected
while batch generation or a regeneration is in flight; an edit-apply
click is rejected while any of the three busy flags is set.  (Batch
generation does not observe the edit-apply flag — see the
counterexample.) -/
theorem busy_flag_discipline (s : AppState) (i : Nat)
    (o1 : Except String String) (o2 : Except String (List String)) :
    ((s.isGeneratingAds = true ∨ s.regeneratingIndex.isSome = true) →
      handleRegenerateAd s i o1 = (s, none)) ∧
    ((s.editingAd.isSome = true ∨ s.isGeneratingAds = true ∨
        s.regeneratingIndex.isSome = true) →
      clickRegenerate s i o1 = (s, none)) ∧
    ((s.isGeneratingAds = true ∨ s.regeneratingIndex.isSome = true) →
      clickSubmit s o2 = (s, false)) ∧
    ((s.isEditing = true ∨ s.isGeneratingAds = true ∨
        s.regeneratingIndex.isSome = true) →
      clickApplyEdit s o1 = (s, none)) := by
  refine ⟨?_, ?_, ?_, ?_⟩
  · rintro (h | h) <;> simp [handleRegenerateAd, h]
  · rintro (h | h | h) <;> simp [clickRegenerate, h]
  · rintro (h | h) <;> simp [clickSubmit, submitDisabled, h]
  · rintro (h | h | h) <;> simp [clickApplyEdit, applyEditDisabled, h]

/-- Witness for C3 (amended): a submit click is rejected while a
regeneration is in flight. -/
theorem busy_flag_discipline_witness :
    clickSubmit
      { imageForAd := some { data := "d", mimeType := "image/png" },
        styleImage := some { data := "d", mimeType := "image/png" },
        logoImage := some { data := "d", mimeType := "image/png" },
        adCopy := { headline := "", description := "", cta := "" },
        skipAdCopy := true, generatedAds := ["A", "B", "C"],
        isGeneratingAds := false, regeneratingIndex := some 2,
        loadingMessage := "", error := none, editingAd := none,
        editPrompt := "", isEditing := false }
      (.ok ["X", "Y", "Z"]) =
      ({ imageForAd := some { data := "d", mimeType := "image/png" },
         styleImage := some { data := "d", mimeType := "image/png" },
         logoImage := some { data := "d", mimeType := "image/png" },
         adCopy := { headline := "", description := "", cta := "" },
         skipAdCopy := true, generatedAds := ["A", "B", "C"],
         isGeneratingAds := false, regeneratingIndex := some 2,
         loadingMessage := "", error := none, editingAd := none,
         editPrompt := "", isEditing := false }, false) :=
  (busy_flag_discipline _ 0 (.ok "x") (.ok ["X", "Y", "Z"])).2.2.1 (Or.inr rfl)

/-! ### C7 — apply-edit preconditions and failure transparency -/

/-- C7.  An apply click with a whitespace-only prompt or with an edit
already in flight is rejected without a provider call and without any
state change.  When the preconditions hold (button enabled, session
open) and the provider edit call fails, the session history, the shared
result array and the prompt input are all unchanged and the failure is
surfaced; the prompt input is cleared exactly on success. -/
theorem apply_edit_guard_and_failure (s : AppState) (o : Except String String) :
    ((jsTrim s.editPrompt = "" ∨ s.isEditing = true) → clickApplyEdit s o = (s, none)) ∧
    (∀ m, applyEditDisabled s = false → s.editingAd.isSome = true →
      o = .error m →
      (clickApplyEdit s o).1.editingAd = s.editingAd ∧
      (clickApplyEdit s o).1.generatedAds = s.generatedAds ∧
      (clickApplyEdit s o).1.editPrompt = s.editPrompt ∧
      (clickApplyEdit s o).1.error = some m ∧
      (clickApplyEdit s o).2.isSome = true) ∧
    (∀ newAd, applyEditDisabled s = false → s.editingAd.isSome = true →
      o = .ok newAd → (clickApplyEdit s o).1.editPrompt = "") := by
  refine ⟨?_, ?_, ?_⟩
  · rintro (h | h) <;> simp [clickApplyEdit, applyEditDisabled, h]
  · intro m hdis hsession ho
    subst ho
    obtain ⟨ed, hed⟩ := Option.isSome_iff_exists.mp hsession
    have htrim : ¬ jsTrim s.editPrompt = "" := by
      intro hcon
      rw [applyEditDisabled, hcon] at hdis
      simp at hdis
    have hred : clickApplyEdit s (.error m) =
        ({ s with error := some m, isEditing := false },
         some (((ed.history.getLast?).getD ""), s.editPrompt)) := by
      rw [clickApplyEdit, if_neg (by rw [hdis]; exact Bool.false_ne_true)]
      rw [handleApplyEdit, hed]
      simp only []
      rw [if_neg htrim]
    rw [hred]
    exact ⟨by rw [hed], rfl, rfl, rfl, rfl⟩
  · intro newAd hdis hsession ho
    subst ho
    obtain ⟨ed, hed⟩ := Option.isSome_iff_exists.mp hsession
    have htrim : ¬ jsTrim s.editPrompt = "" := by
      intro hcon
      rw [applyEditDisabled, hcon] at hdis
      simp at hdis
    rw [clickApplyEdit, if_neg (by rw [hdis]; exact Bool.false_ne_true)]
    rw [handleApplyEdit, hed]
    simp only []
    rw [if_neg htrim]

/-- Witness for C7: a failing provider edit call leaves the concrete
history, slots and prompt of the concrete state unchanged and
surfaces the message. -/
theorem apply_edit_guard_and_failure_witness :
    (clickApplyEdit
        { imageForAd := some { data := "d", mimeType := "image/png" },
          styleImage := some { data := "d", mimeType := "image/png" },
          logoImage := some { data := "d", mimeType := "image/png" },
          adCopy := { headline := "", description := "", cta := "" },
          skipAdCopy := true, generatedAds := ["A", "B", "C"],
          isGeneratingAds := false, regeneratingIndex := none,
          loadingMessage := "", error := none,
          editingAd := some { index := 0, originalData := "A", history := ["A"] },
          editPrompt := "bigger logo", isEditing := false }
        (.error "boom")).1.generatedAds = ["A", "B", "C"] :=
  ((apply_edit_guard_and_failure
      { imageForAd := some { data := "d", mimeType := "image/png" },
        styleImage := some { data := "d", mimeType := "image/png" },
        logoImage := some { data := "d", mimeType := "image/png" },
        adCopy := { headline := "", description := "", cta := "" },
        skipAdCopy := true, generatedAds := ["A", "B", "C"],
        isGeneratingAds := false, regeneratingIndex := none,
        loadingMessage := "", error := none,
        editingAd := some { index := 0, originalData := "A", history := ["A"] },
        editPrompt := "bigger logo", isEditing := false }
      (.error "boom")).2.1 "boom" (by decide) rfl rfl).2.1

/-! ### C6 — edit history scenario -/

/-- A successful apply click on an enabled button with an open session:
the computed post-state. -/
theorem clickApplyEdit_ok (s : AppState) (ed : EditingAd) (newAd : String)
    (hed : s.editingAd = some ed) (htrim : jsTrim s.editPrompt ≠ "")
    (hied : s.isEditing = false) (hga : s.isGeneratingAds = false)
    (hreg : s.regeneratingIndex = none) :
    (clickApplyEdit s (.ok newAd)).1 =
      { s with generatedAds := s.generatedAds.set ed.index newAd,
               editingAd := some { ed with history := ed.history ++ [newAd] },
               editPrompt := "", error := none, isEditing := false } := by
  have hdis : applyEditDisabled s = false := by
    rw [applyEditDisabled, hied, hga, hreg]
    simp [htrim]
  rw [clickApplyEdit, if_neg (by rw [hdis]; exact Bool.false_ne_true)]
  rw [handleApplyEdit, hed]
  simp only []
  rw [if_neg htrim]

/-- C6.  Starting from a session opened on slot `i` holding `O`:
a successful `apply(p1)` yields history `[O, E1]` with live value `E1`,
a successful `apply(p2)` then yields `[O, E1, E2]` with live `E2`,
`undo()` yields `[O, E1]` with live `E1`, `revert()` yields `[O]` with
live `O`, and a further `undo()` on `[O]` is a no-op; after every step
the shared result array at the session index holds the last history
entry.  (Setting `editPrompt` before each apply is the prompt-input
write; the session and flags are otherwise as the UI leaves them.) -/
theorem edit_history_scenario (s s1 s2 s3 s4 s5 : AppState) (i : Nat)
    (O E1 E2 p1 p2 : String)
    (hsession : s.editingAd = some { index := i, originalData := O, history := [O] })
    (hslot : s.generatedAds.get? i = some O)
    (hied : s.isEditing = false) (hga : s.isGeneratingAds = false)
    (hreg : s.regeneratingIndex = none)
    (hp1 : jsTrim p1 ≠ "") (hp2 : jsTrim p2 ≠ "")
    (hs1 : s1 = (clickApplyEdit { s with editPrompt := p1 } (.ok E1)).1)
    (hs2 : s2 = (clickApplyEdit { s1 with editPrompt := p2 } (.ok E2)).1)
    (hs3 : s3 = handleUndoEdit s2)
    (hs4 : s4 = handleRevertToOriginal s3)
    (hs5 : s5 = handleUndoEdit s4) :
    s1.editingAd = some { index := i, originalData := O, history := [O, E1] } ∧
    s1.generatedAds.get? i = some E1 ∧
    s2.editingAd = some { index := i, originalData := O, history := [O, E1, E2] } ∧
    s2.generatedAds.get? i = some E2 ∧
    s3.editingAd = some { index := i, originalData := O, history := [O, E1] } ∧
    s3.generatedAds.get? i = some E1 ∧
    s4.editingAd = some { index := i, originalData := O, history := [O] } ∧
    s4.generatedAds.get? i = some O ∧
    s5 = s4 := by
  have hlen : i < s.generatedAds.length := by
    rcases List.get?_eq_some.mp hslot with ⟨h, -⟩
    exact h
  have e1 : s1 = { s with
      generatedAds := s.generatedAds.set i E1,
      editingAd := some { index := i, originalData := O, history := [O] ++ [E1] },
      editPrompt := "", error := none, isEditing := false } := by
    rw [hs1]
    exact clickApplyEdit_ok { s with editPrompt := p1 }
      { index := i, originalData := O, history := [O] } E1 hsession hp1 hied hga hreg
  have e2 : s2 = { s1 with
      generatedAds := s1.generatedAds.set i E2,
      editingAd := some { index := i, originalData := O, history := ([O] ++ [E1]) ++ [E2] },
      editPrompt := "", error := none, isEditing := false } := by
    rw [hs2]
    exact clickApplyEdit_ok { s1 with editPrompt := p2 }
      { index := i, originalData := O, history := [O] ++ [E1] } E2
      (by rw [e1]) hp2 (by rw [e1]) (by rw [e1]; exact hga)
      (by rw [e1]; exact hreg)
  refine ⟨by rw [e1]; try rfl, ?_, by rw [e2]; try rfl, ?_, ?_, ?_, ?_, ?_, ?_⟩
  · rw [e1]
    show (s.generatedAds.set i E1).get? i = some E1
    simpa using List.getElem?_set_eq_of_lt E1 hlen
  · rw [e2, e1]
    show ((s.generatedAds.set i E1).set i E2).get? i = some E2
    have hlen2 : i < (s.generatedAds.set i E1).length := by simpa using hlen
    simpa using List.getElem?_set_eq_of_lt E2 hlen2
  · rw [hs3, e2]
    rfl
  · rw [hs3, e2, e1]
    show ((((s.generatedAds.set i E1).set i E2)).set i E1).get? i = some E1
    have hlen3 : i < ((s.generatedAds.set i E1).set i E2).length := by simpa using hlen
    simpa using List.getElem?_set_eq_of_lt E1 hlen3
  · rw [hs4, hs3, e2]
    rfl
  · rw [hs4, hs3, e2, e1]
    show (((((s.generatedAds.set i E1).set i E2)).set i E1).set i O).get? i = some O
    have hlen4 : i < (((s.generatedAds.set i E1).set i E2).set i E1).length := by
      simpa using hlen
    simpa using List.getElem?_set_eq_of_lt O hlen4
  · rw [hs5, hs4, hs3, e2]
    rfl

/-- A concrete idle state with an open session on slot 0. -/
def editDemo0 : AppState :=
  { imageForAd := some { data := "d", mimeType := "image/png" },
    styleImage := some { data := "d", mimeType := "image/png" },
    logoImage := some { data := "d", mimeType := "image/png" },
    adCopy := { headline := "", description := "", cta := "" },
    skipAdCopy := true, generatedAds := ["A", "B", "C"],
    isGeneratingAds := false, regeneratingIndex := none,
    loadingMessage := "", error := none,
    editingAd := some { index := 0, originalData := "A", history := ["A"] },
    editPrompt := "", isEditing := false }

/-- The state after `apply("p1")` succeeds with `E1`. -/
def editDemo1 : AppState :=
  (clickApplyEdit { editDemo0 with editPrompt := "p1" } (.ok "E1")).1

/-- The state after `apply("p2")` succeeds with `E2`. -/
def editDemo2 : AppState :=
  (clickApplyEdit { editDemo1 with editPrompt := "p2" } (.ok "E2")).1

/-- The state after `undo()`. -/
def editDemo3 : AppState := handleUndoEdit editDemo2

/-- The state after `revert()`. -/
def editDemo4 : AppState := handleRevertToOriginal editDemo3

/-- The state after the final no-op `undo()`. -/
def editDemo5 : AppState := handleUndoEdit editDemo4

/-- Witness for C6 at the concrete scenario. -/
theorem edit_history_scenario_witness :
    editDemo1.editingAd =
      some { index := 0, originalData := "A", history := ["A", "E1"] } ∧
    editDemo4.generatedAds.get? 0 = some "A" ∧
    editDemo5 = editDemo4 := by
  have h := edit_history_scenario editDemo0 editDemo1 editDemo2 editDemo3
    editDemo4 editDemo5 0 "A" "E1" "E2" "p1" "p2"
    rfl rfl rfl rfl rfl (by decide) (by decide) rfl rfl rfl rfl rfl
  exact ⟨h.1, h.2.2.2.2.2.2.2.1, h.2.2.2.2.2.2.2.2⟩

end BananaMilkshake
